import Mathlib

set_option maxHeartbeats 1000000

/- Shallow embedding of main/server/models.py (biostar-central).

   Machine integers are modelled as Int; the float field `rank` is modelled as
   Int (the source only ever adds integral quantities to it).  Django rows are
   records; tables are lists or total maps keyed by id.  Django signal handlers
   are inlined at their firing sites, in source registration order. -/

/-- Modelled from the spec: const.py is not among the sources; the post types
    are question, answer, comment, blog, page (section 3). -/
inductive PostType | question | answer | comment | blog | page
deriving DecidableEq, Repr

/-- Modelled from the spec: the top-level post types are question, blog, page
    (glossary). -/
def POST_TOPLEVEL : List PostType := [.question, .blog, .page]

/-- Modelled from the spec: the content-only post types are answer and comment
    (combined form uses only the content for these). -/
def POST_CONTENT_ONLY : List PostType := [.answer, .comment]

inductive PostStatus | opened | closed | deleted
deriving DecidableEq, Repr

inductive VoteType | up | down | accept | bookmark
deriving DecidableEq, Repr

/-- Modelled from the spec: const.py is missing; up and down are the opposing
    vote classes (section 3). -/
def OPPOSING_VOTES : VoteType → Option VoteType
  | .up => some .down
  | .down => some .up
  | _ => none

inductive NoteType | user | moderator
deriving DecidableEq, Repr

inductive UserType | new | moderator | admin
deriving DecidableEq, Repr

inductive UserStatus | active | suspended
deriving DecidableEq, Repr

/- ---------------------------------------------------------------------------
   Signal registration (models.py lines 639-654):
   MODELS_WITH_APPLY = [Post, Vote, Award]; the loop connects apply_instance to
   post_save and unapply_instance to post_delete once per model.  We record the
   directions passed to apply() by each handler invocation. -/

inductive MKind | post | vote | award | tag | note | user
deriving DecidableEq, Repr

def MODELS_WITH_APPLY : List MKind := [.post, .vote, .award]

/-- apply_instance: fires instance.apply(+1) iff created and not raw (raw is
    true when importing from fixtures).  The list holds the directions passed
    to apply() by this handler invocation. -/
def apply_instance (created raw : Bool) : List Int :=
  if created && !raw then [1] else []

/-- unapply_instance: fires instance.apply(-1) on deletion. -/
def unapply_instance : List Int := [-1]

/-- Directions passed to apply() when an instance of kind k is saved: one
    apply_instance invocation per registration of k in MODELS_WITH_APPLY. -/
def applyCallsOnSave (k : MKind) (created raw : Bool) : List Int :=
  (MODELS_WITH_APPLY.filter (fun m => decide (m = k))).foldr
    (fun _ acc => apply_instance created raw ++ acc) []

/-- Directions passed to apply() when an instance of kind k is deleted. -/
def applyCallsOnDelete (k : MKind) : List Int :=
  (MODELS_WITH_APPLY.filter (fun m => decide (m = k))).foldr
    (fun _ acc => unapply_instance ++ acc) []

/- ---------------------------------------------------------------------------
   Tag counting (models.py lines 740-764), viewed from a single tag: the state
   is the stored count together with the set of posts currently associated.
   tags_changed handles m2m events: post_add (this tag newly added to a post),
   post_delete (removed from a post), pre_clear (a post clears its tag set;
   the tag is affected only if the post currently carries it). -/

structure TagState where
  count : Int
  assoc : Finset Nat
deriving DecidableEq

inductive TagEv
  | add (p : Nat)
  | remove (p : Nat)
  | clear (p : Nat)
deriving DecidableEq, Repr

/-- tags_changed, restricted to one tag: post_add increments the count,
    post_delete decrements it, pre_clear decrements it for each tag still in
    the post's tag set. -/
def tags_changed (s : TagState) : TagEv → TagState
  | .add p => { count := s.count + 1, assoc := insert p s.assoc }
  | .remove p => { count := s.count - 1, assoc := s.assoc.erase p }
  | .clear p =>
      if p ∈ s.assoc then { count := s.count - 1, assoc := s.assoc.erase p }
      else s

/-- tag_created: the post_save hook zeroes out a nonzero count on a newly
    created Tag row (to avoid double counting during import). -/
def tag_created (suppliedCount : Int) : TagState :=
  if suppliedCount ≠ 0 then { count := 0, assoc := ∅ }
  else { count := suppliedCount, assoc := ∅ }

/-- An event is valid relative to the current association set when a tag is
    added only to a post not already carrying it and removed only from a post
    carrying it (Django fires post_add only for newly added rows). -/
def validEv (a : Finset Nat) : TagEv → Bool
  | .add p => decide (p ∉ a)
  | .remove p => decide (p ∈ a)
  | .clear _ => true

/-- A sequence of tag events each valid in the state it encounters. -/
def validSeq : TagState → List TagEv → Bool
  | _, [] => true
  | s, e :: rest => validEv s.assoc e && validSeq (tags_changed s e) rest

lemma tags_changed_run_invariant (evs : List TagEv) :
    ∀ s : TagState, s.count = (s.assoc.card : Int) → validSeq s evs = true →
      (evs.foldl tags_changed s).count = (((evs.foldl tags_changed s).assoc.card : Int)) := by
  induction evs with
  | nil => intro s h _; simpa using h
  | cons e rest ih =>
    intro s h hv
    rw [validSeq, Bool.and_eq_true] at hv
    rw [List.foldl_cons]
    refine ih _ ?_ hv.2
    have hv1 := hv.1
    cases e with
    | add p =>
      rw [validEv, decide_eq_true_eq] at hv1
      simp only [tags_changed, Finset.card_insert_of_not_mem hv1, h]
      push_cast
      ring
    | remove p =>
      rw [validEv, decide_eq_true_eq] at hv1
      have hpos : 1 ≤ s.assoc.card := Finset.card_pos.mpr ⟨p, hv1⟩
      simp only [tags_changed, Finset.card_erase_of_mem hv1, h]
      omega
    | clear p =>
      by_cases hp : p ∈ s.assoc
      · have hpos : 1 ≤ s.assoc.card := Finset.card_pos.mpr ⟨p, hp⟩
        simp only [tags_changed, hp, if_true, Finset.card_erase_of_mem hp, h]
        omega
      · simpa [tags_changed, hp] using h

/-- Claim C1: for each of Post, Vote and Award, a successful non-raw creation
    invokes the instance's apply method with direction +1 exactly once, a
    deletion invokes apply with direction -1 exactly once, and a raw fixture
    creation invokes apply zero times. -/
theorem apply_dispatch_exactly_once (k : MKind) (h : k ∈ MODELS_WITH_APPLY) :
    applyCallsOnSave k true false = [1] ∧
    (∀ created : Bool, applyCallsOnSave k created true = []) ∧
    applyCallsOnDelete k = [-1] := by
  fin_cases h <;>
    exact ⟨by decide, fun c => by cases c <;> decide, by decide⟩

theorem apply_dispatch_exactly_once_witness :
    applyCallsOnSave MKind.vote true false = [1] ∧
    (∀ created : Bool, applyCallsOnSave MKind.vote created true = []) ∧
    applyCallsOnDelete MKind.vote = [-1] :=
  apply_dispatch_exactly_once MKind.vote (by decide)

/-- Claim C4: starting from a tag's creation, under any valid sequence of
    tag-association events the stored count equals the number of posts
    currently associated with the tag and is never negative; a newly created
    Tag row has count 0 regardless of the count value supplied at creation. -/
theorem tag_count_invariant (suppliedCount : Int) (evs : List TagEv)
    (h : validSeq (tag_created suppliedCount) evs = true) :
    (evs.foldl tags_changed (tag_created suppliedCount)).count =
      ((evs.foldl tags_changed (tag_created suppliedCount)).assoc.card : Int) ∧
    0 ≤ (evs.foldl tags_changed (tag_created suppliedCount)).count ∧
    (tag_created suppliedCount).count = 0 := by
  have h0 : (tag_created suppliedCount).count = 0 := by
    by_cases hs : suppliedCount = 0 <;> simp [tag_created, hs]
  have h1 : (tag_created suppliedCount).count =
      (((tag_created suppliedCount).assoc.card : Int)) := by
    by_cases hs : suppliedCount = 0 <;> simp [tag_created, hs]
  have h2 := tags_changed_run_invariant evs _ h1 h
  refine ⟨h2, ?_, h0⟩
  rw [h2]
  exact_mod_cast Nat.zero_le _

def tagEvs0 : List TagEv := [TagEv.add 1, TagEv.add 2, TagEv.clear 1, TagEv.remove 2]

theorem tag_count_invariant_witness :
    (tagEvs0.foldl tags_changed (tag_created 5)).count =
      ((tagEvs0.foldl tags_changed (tag_created 5)).assoc.card : Int) ∧
    0 ≤ (tagEvs0.foldl tags_changed (tag_created 5)).count ∧
    (tag_created 5).count = 0 :=
  tag_count_invariant 5 tagEvs0 (by decide)

/- ---------------------------------------------------------------------------
   Entity records and the database state.  Rows carry the fields the claims
   touch; tables are total maps keyed by id (postIds lists the live post rows)
   or lists of rows. -/

structure ProfileR where
  utype : UserType
  score : Int
  bronze_badges : Int
  silver_badges : Int
  gold_badges : Int
  new_messages : Int
  status : UserStatus
deriving DecidableEq, Repr

structure PostR where
  author : Nat
  ptype : PostType
  status : PostStatus
  title : String
  slug : String
  content : String
  tag_val : String
  url : String
  score : Int
  full_score : Int
  rank : Int
  answer_count : Int
  comment_count : Int
  revision_count : Int
  accepted : Bool
  rootId : Nat
  parentId : Nat
deriving DecidableEq, Repr

structure VoteR where
  author : Nat
  post : Nat
  vtype : VoteType
deriving DecidableEq, Repr

structure NoteR where
  sender : Nat
  target : Nat
  content : String
  ntype : NoteType
  unread : Bool
  url : String
deriving DecidableEq, Repr

structure RevisionR where
  diff : String
  content : String
deriving DecidableEq, Repr

structure DB where
  postIds : List Nat
  posts : Nat → PostR
  profiles : Nat → ProfileR
  votes : List VoteR
  notes : List NoteR
  revisions : Nat → List RevisionR

def DB.setPost (db : DB) (i : Nat) (p : PostR) : DB :=
  { db with posts := fun j => if j = i then p else db.posts j }

def DB.updatePost (db : DB) (i : Nat) (f : PostR → PostR) : DB :=
  db.setPost i (f (db.posts i))

def DB.updateProfile (db : DB) (u : Nat) (f : ProfileR → ProfileR) : DB :=
  { db with profiles := fun v => if v = u then f (db.profiles v) else db.profiles v }

@[simp] lemma setPost_posts_same (db : DB) (i : Nat) (p : PostR) :
    (db.setPost i p).posts i = p := by simp [DB.setPost]

@[simp] lemma setPost_posts_other (db : DB) (i j : Nat) (p : PostR) (h : j ≠ i) :
    (db.setPost i p).posts j = db.posts j := by simp [DB.setPost, h]

@[simp] lemma setPost_profiles (db : DB) (i : Nat) (p : PostR) :
    (db.setPost i p).profiles = db.profiles := rfl

@[simp] lemma setPost_votes (db : DB) (i : Nat) (p : PostR) :
    (db.setPost i p).votes = db.votes := rfl

@[simp] lemma setPost_notes (db : DB) (i : Nat) (p : PostR) :
    (db.setPost i p).notes = db.notes := rfl

@[simp] lemma setPost_postIds (db : DB) (i : Nat) (p : PostR) :
    (db.setPost i p).postIds = db.postIds := rfl

@[simp] lemma setPost_revisions (db : DB) (i : Nat) (p : PostR) :
    (db.setPost i p).revisions = db.revisions := rfl

@[simp] lemma updatePost_posts_same (db : DB) (i : Nat) (f : PostR → PostR) :
    (db.updatePost i f).posts i = f (db.posts i) := by simp [DB.updatePost]

@[simp] lemma updatePost_posts_other (db : DB) (i j : Nat) (f : PostR → PostR) (h : j ≠ i) :
    (db.updatePost i f).posts j = db.posts j := by
  simp [DB.updatePost, setPost_posts_other _ _ _ _ h]

@[simp] lemma updatePost_profiles (db : DB) (i : Nat) (f : PostR → PostR) :
    (db.updatePost i f).profiles = db.profiles := rfl

@[simp] lemma updatePost_votes (db : DB) (i : Nat) (f : PostR → PostR) :
    (db.updatePost i f).votes = db.votes := rfl

@[simp] lemma updatePost_notes (db : DB) (i : Nat) (f : PostR → PostR) :
    (db.updatePost i f).notes = db.notes := rfl

@[simp] lemma updatePost_postIds (db : DB) (i : Nat) (f : PostR → PostR) :
    (db.updatePost i f).postIds = db.postIds := rfl

@[simp] lemma updatePost_revisions (db : DB) (i : Nat) (f : PostR → PostR) :
    (db.updatePost i f).revisions = db.revisions := rfl

@[simp] lemma updateProfile_profiles_same (db : DB) (u : Nat) (f : ProfileR → ProfileR) :
    (db.updateProfile u f).profiles u = f (db.profiles u) := by simp [DB.updateProfile]

@[simp] lemma updateProfile_profiles_other (db : DB) (u v : Nat) (f : ProfileR → ProfileR)
    (h : v ≠ u) : (db.updateProfile u f).profiles v = db.profiles v := by
  simp [DB.updateProfile, h]

@[simp] lemma updateProfile_posts (db : DB) (u : Nat) (f : ProfileR → ProfileR) :
    (db.updateProfile u f).posts = db.posts := rfl

@[simp] lemma updateProfile_votes (db : DB) (u : Nat) (f : ProfileR → ProfileR) :
    (db.updateProfile u f).votes = db.votes := rfl

@[simp] lemma updateProfile_notes (db : DB) (u : Nat) (f : ProfileR → ProfileR) :
    (db.updateProfile u f).notes = db.notes := rfl

@[simp] lemma updateProfile_postIds (db : DB) (u : Nat) (f : ProfileR → ProfileR) :
    (db.updateProfile u f).postIds = db.postIds := rfl

@[simp] lemma updateProfile_revisions (db : DB) (u : Nat) (f : ProfileR → ProfileR) :
    (db.updateProfile u f).revisions = db.revisions := rfl

/- ---------------------------------------------------------------------------
   Scoring engine (models.py lines 516-540).  post_score_change mirrors the
   source: update the voted post's rank/score (and its own full_score when it
   is its own root), save it; when the post differs from its root, bump the
   root's full_score and raise the root's rank to the post's new rank if that
   now exceeds it. -/

def post_score_change (db : DB) (postId : Nat) (amount : Int) (hours : Int) : DB :=
  let post := db.posts postId
  let rootId := post.rootId
  let gain := 3600 * hours
  let post1 : PostR :=
    { post with
      rank := post.rank + amount * gain
      score := post.score + amount
      full_score := if postId = rootId then post.full_score + amount else post.full_score }
  let db1 := db.setPost postId post1
  if postId = rootId then db1
  else
    let root := db1.posts rootId
    let root1 : PostR :=
      { root with
        full_score := root.full_score + amount
        rank := if post1.rank > root.rank then post1.rank else root.rank }
    db1.setPost rootId root1

/-- user_score_change (models.py lines 537-540): reputation change. -/
def user_score_change (db : DB) (userId : Nat) (amount : Int) : DB :=
  db.updateProfile userId (fun pr => { pr with score := pr.score + amount })

/-- Post.apply (models.py lines 250-256): denormalized counters on the parent. -/
def Post_apply (db : DB) (postId : Nat) (dir : Int) : DB :=
  let p := db.posts postId
  let db1 :=
    if p.ptype = .answer then
      db.updatePost p.parentId (fun q => { q with answer_count := q.answer_count + dir })
    else db
  if p.ptype = .comment then
    db1.updatePost p.parentId (fun q => { q with comment_count := q.comment_count + dir })
  else db1

/-- Vote.apply (models.py lines 553-567). -/
def Vote_apply (db : DB) (v : VoteR) (dir : Int) : DB :=
  let author := (db.posts v.post).author
  let rootId := (db.posts v.post).rootId
  let db1 :=
    if v.vtype = .up then user_score_change (post_score_change db v.post dir 1) author dir
    else db
  let db2 := if v.vtype = .down then post_score_change db1 v.post (-dir) 1 else db1
  if v.vtype = .accept then
    (db2.updatePost v.post (fun p => { p with accepted := dir = 1 })).updatePost rootId
      (fun p => { p with accepted := dir = 1 })
  else db2

/-- Removes the first row equal to v (a Django delete removes one row). -/
def removeFirst : List VoteR → VoteR → List VoteR
  | [], _ => []
  | x :: xs, v => if x = v then xs else x :: removeFirst xs v

/-- Vote row creation: the row is inserted and the post_save signal fires
    apply_instance with created = true, raw = false, hence apply(+1). -/
def createVote (db : DB) (postId userId : Nat) (vt : VoteType) : DB × VoteR :=
  let v : VoteR := { author := userId, post := postId, vtype := vt }
  let db1 : DB := { db with votes := db.votes ++ [v] }
  (Vote_apply db1 v 1, v)

/-- Vote row deletion: the row is removed and the post_delete signal fires
    unapply_instance, hence apply(-1). -/
def deleteVote (db : DB) (v : VoteR) : DB :=
  let db1 : DB := { db with votes := removeFirst db.votes v }
  Vote_apply db1 v (-1)

/-- insert_vote (models.py lines 569-595): existing votes of the same type are
    removed (toggle); otherwise opposing votes are removed and a new vote row
    is created. -/
def insert_vote (db : DB) (postId userId : Nat) (vt : VoteType) : DB × String :=
  let matched := db.votes.filter
    (fun v => decide (v.post = postId ∧ v.author = userId ∧ v.vtype = vt))
  if matched.isEmpty then
    let db1 :=
      match OPPOSING_VOTES vt with
      | some opp =>
          (db.votes.filter
            (fun v => decide (v.post = postId ∧ v.author = userId ∧ v.vtype = opp))).foldl
            deleteVote db
      | none => db
    ((createVote db1 postId userId vt).1, "added")
  else
    (matched.foldl deleteVote db, "removed")

lemma psc_posts_self (db : DB) (postId : Nat) (a h : Int) :
    (post_score_change db postId a h).posts postId =
      { db.posts postId with
        rank := (db.posts postId).rank + a * (3600 * h)
        score := (db.posts postId).score + a
        full_score :=
          if postId = (db.posts postId).rootId then (db.posts postId).full_score + a
          else (db.posts postId).full_score } := by
  simp only [post_score_change]
  split
  next hc => simp
  next hc => simp [hc]

lemma psc_posts_root (db : DB) (postId : Nat) (a h : Int)
    (hr : (db.posts postId).rootId ≠ postId) :
    (post_score_change db postId a h).posts (db.posts postId).rootId =
      { db.posts (db.posts postId).rootId with
        full_score := (db.posts (db.posts postId).rootId).full_score + a
        rank :=
          if (db.posts postId).rank + a * (3600 * h) >
              (db.posts (db.posts postId).rootId).rank then
            (db.posts postId).rank + a * (3600 * h)
          else (db.posts (db.posts postId).rootId).rank } := by
  have hc : ¬ postId = (db.posts postId).rootId := fun he => hr he.symm
  simp [post_score_change, hc, hr]

@[simp] lemma psc_profiles (db : DB) (postId : Nat) (a h : Int) :
    (post_score_change db postId a h).profiles = db.profiles := by
  simp only [post_score_change]
  split <;> rfl

@[simp] lemma psc_votes (db : DB) (postId : Nat) (a h : Int) :
    (post_score_change db postId a h).votes = db.votes := by
  simp only [post_score_change]
  split <;> rfl

@[simp] lemma psc_notes (db : DB) (postId : Nat) (a h : Int) :
    (post_score_change db postId a h).notes = db.notes := by
  simp only [post_score_change]
  split <;> rfl

@[simp] lemma psc_postIds (db : DB) (postId : Nat) (a h : Int) :
    (post_score_change db postId a h).postIds = db.postIds := by
  simp only [post_score_change]
  split <;> rfl

@[simp] lemma psc_revisions (db : DB) (postId : Nat) (a h : Int) :
    (post_score_change db postId a h).revisions = db.revisions := by
  simp only [post_score_change]
  split <;> rfl

@[simp] lemma usc_posts (db : DB) (u : Nat) (a : Int) :
    (user_score_change db u a).posts = db.posts := rfl

@[simp] lemma usc_votes (db : DB) (u : Nat) (a : Int) :
    (user_score_change db u a).votes = db.votes := rfl

@[simp] lemma usc_notes (db : DB) (u : Nat) (a : Int) :
    (user_score_change db u a).notes = db.notes := rfl

@[simp] lemma usc_postIds (db : DB) (u : Nat) (a : Int) :
    (user_score_change db u a).postIds = db.postIds := rfl

@[simp] lemma usc_revisions (db : DB) (u : Nat) (a : Int) :
    (user_score_change db u a).revisions = db.revisions := rfl

@[simp] lemma usc_profiles_same (db : DB) (u : Nat) (a : Int) :
    (user_score_change db u a).profiles u =
      { db.profiles u with score := (db.profiles u).score + a } := by
  simp [user_score_change]

lemma Vote_apply_votes (db : DB) (v : VoteR) (d : Int) :
    (Vote_apply db v d).votes = db.votes := by
  obtain ⟨a, p, t⟩ := v
  cases t <;> simp [Vote_apply]

lemma Vote_apply_notes (db : DB) (v : VoteR) (d : Int) :
    (Vote_apply db v d).notes = db.notes := by
  obtain ⟨a, p, t⟩ := v
  cases t <;> simp [Vote_apply]

lemma Vote_apply_postIds (db : DB) (v : VoteR) (d : Int) :
    (Vote_apply db v d).postIds = db.postIds := by
  obtain ⟨a, p, t⟩ := v
  cases t <;> simp [Vote_apply]

lemma Vote_apply_revisions (db : DB) (v : VoteR) (d : Int) :
    (Vote_apply db v d).revisions = db.revisions := by
  obtain ⟨a, p, t⟩ := v
  cases t <;> simp [Vote_apply]

/- Concrete fixtures used by witnesses and counterexamples. -/

def post0 : PostR :=
  { author := 0, ptype := .question, status := .opened, title := "t", slug := "t",
    content := "c", tag_val := "", url := "", score := 0, full_score := 0, rank := 0,
    answer_count := 0, comment_count := 0, revision_count := 0, accepted := false,
    rootId := 0, parentId := 0 }

def profile0 : ProfileR :=
  { utype := .new, score := 0, bronze_badges := 0, silver_badges := 0,
    gold_badges := 0, new_messages := 0, status := .active }

def db0 : DB :=
  { postIds := [0], posts := fun _ => post0, profiles := fun _ => profile0,
    votes := [], notes := [], revisions := fun _ => [] }

/-- Claim C3 counterexample: applying a down-vote with direction 1 changes the
    post's rank (post_score_change also moves the rank), contradicting the
    claim that the rank is unchanged. -/
theorem down_vote_rank_counterexample :
    ((Vote_apply db0 { author := 1, post := 0, vtype := VoteType.down } 1).posts 0).rank ≠
      (db0.posts 0).rank := by decide

/-- Claim C3 (amended): applying a down-vote with direction d changes the
    post's score by -d and the post's rank by -d * 3600 * hours (hours = 1),
    while every user's reputation score is unchanged. -/
theorem down_vote_apply (db : DB) (v : VoteR) (d : Int) (h : v.vtype = .down) :
    ((Vote_apply db v d).posts v.post).score = (db.posts v.post).score - d ∧
    ((Vote_apply db v d).posts v.post).rank = (db.posts v.post).rank - d * 3600 ∧
    (Vote_apply db v d).profiles = db.profiles := by
  obtain ⟨a, p, t⟩ := v
  simp only [VoteR.vtype] at h
  subst h
  refine ⟨?_, ?_, ?_⟩ <;> simp [Vote_apply, psc_posts_self] <;> ring

theorem down_vote_apply_witness :
    ((Vote_apply db0 { author := 1, post := 0, vtype := VoteType.down } 1).posts 0).score =
      (db0.posts 0).score - 1 ∧
    ((Vote_apply db0 { author := 1, post := 0, vtype := VoteType.down } 1).posts 0).rank =
      (db0.posts 0).rank - 1 * 3600 ∧
    (Vote_apply db0 { author := 1, post := 0, vtype := VoteType.down } 1).profiles =
      db0.profiles :=
  down_vote_apply db0 { author := 1, post := 0, vtype := VoteType.down } 1 rfl

lemma if_gt_eq_max (r p : Int) : (if p > r then p else r) = max r p := by
  rw [max_def]
  split_ifs <;> omega

/-- Claim C10: for a non-root post, post_score_change never decreases the
    root's rank: the new root rank is the maximum of the old root rank and the
    post's new rank (so it is overwritten only when exceeded), and applying an
    up-vote and then undoing it leaves the root's rank at that maximum rather
    than restoring the pre-vote value. -/
theorem post_score_change_root_rank (db : DB) (postId : Nat) (amount hours : Int)
    (hr : (db.posts postId).rootId ≠ postId) :
    ((post_score_change db postId amount hours).posts (db.posts postId).rootId).rank =
      max ((db.posts (db.posts postId).rootId).rank)
        ((db.posts postId).rank + amount * (3600 * hours)) ∧
    (db.posts (db.posts postId).rootId).rank ≤
      ((post_score_change db postId amount hours).posts (db.posts postId).rootId).rank ∧
    ((post_score_change (post_score_change db postId 1 1) postId (-1) 1).posts
        (db.posts postId).rootId).rank =
      max ((db.posts (db.posts postId).rootId).rank) ((db.posts postId).rank + 3600) := by
  have h1 := psc_posts_root db postId amount hours hr
  have hpart1 : ((post_score_change db postId amount hours).posts
      (db.posts postId).rootId).rank =
      max ((db.posts (db.posts postId).rootId).rank)
        ((db.posts postId).rank + amount * (3600 * hours)) := by
    rw [h1, ← if_gt_eq_max]
  refine ⟨hpart1, ?_, ?_⟩
  · rw [hpart1]
    exact le_max_left _ _
  · have h2 := psc_posts_root db postId 1 1 hr
    have hself := psc_posts_self db postId 1 1
    have hr1 : ((post_score_change db postId 1 1).posts postId).rootId ≠ postId := by
      rw [hself]
      exact hr
    have h3 := psc_posts_root (post_score_change db postId 1 1) postId (-1) 1 hr1
    rw [hself] at h3
    simp only [h3, h2, hself, psc_profiles]
    rw [max_def]
    split_ifs <;> omega

def postChild : PostR := { post0 with ptype := .answer, rootId := 1, parentId := 1 }

def postRoot1 : PostR := { post0 with rootId := 1, parentId := 1 }

def db1x : DB :=
  { db0 with postIds := [0, 1], posts := fun i => if i = 1 then postRoot1 else postChild }

theorem post_score_change_root_rank_witness :
    ((post_score_change db1x 0 1 1).posts (db1x.posts 0).rootId).rank =
      max ((db1x.posts (db1x.posts 0).rootId).rank) ((db1x.posts 0).rank + 1 * (3600 * 1)) ∧
    (db1x.posts (db1x.posts 0).rootId).rank ≤
      ((post_score_change db1x 0 1 1).posts (db1x.posts 0).rootId).rank ∧
    ((post_score_change (post_score_change db1x 0 1 1) 0 (-1) 1).posts
        (db1x.posts 0).rootId).rank =
      max ((db1x.posts (db1x.posts 0).rootId).rank) ((db1x.posts 0).rank + 3600) :=
  post_score_change_root_rank db1x 0 1 1 (by decide)

lemma Vote_apply_up (db : DB) (v : VoteR) (d : Int) (hv : v.vtype = .up) :
    Vote_apply db v d =
      user_score_change (post_score_change db v.post d 1) ((db.posts v.post).author) d := by
  obtain ⟨a, p, t⟩ := v
  simp only at hv
  subst hv
  simp [Vote_apply]

lemma removeFirst_append_singleton (l : List VoteR) (v : VoteR)
    (h : ∀ x ∈ l, x ≠ v) : removeFirst (l ++ [v]) v = l := by
  induction l with
  | nil => simp [removeFirst]
  | cons x xs ih =>
    have hx : x ≠ v := h x (List.mem_cons_self x xs)
    simp only [List.cons_append, removeFirst, if_neg hx]
    exact congrArg (x :: ·) (ih fun y hy => h y (List.mem_cons_of_mem x hy))

/-- Claim C2: for a user with no existing votes on a post, casting an up-vote
    and then casting it again (toggle) restores the post's score, the post's
    rank and the post author's reputation score to their initial values. -/
theorem up_vote_toggle_restores (db : DB) (postId userId : Nat)
    (h : ∀ v ∈ db.votes, ¬ (v.post = postId ∧ v.author = userId)) :
    ((insert_vote (insert_vote db postId userId VoteType.up).1 postId userId
        VoteType.up).1.posts postId).score = (db.posts postId).score ∧
    ((insert_vote (insert_vote db postId userId VoteType.up).1 postId userId
        VoteType.up).1.posts postId).rank = (db.posts postId).rank ∧
    ((insert_vote (insert_vote db postId userId VoteType.up).1 postId userId
        VoteType.up).1.profiles (db.posts postId).author).score =
      (db.profiles (db.posts postId).author).score := by
  have hup : ∀ vt : VoteType, db.votes.filter
      (fun v => decide (v.post = postId ∧ v.author = userId ∧ v.vtype = vt)) = [] := by
    intro vt
    refine List.filter_eq_nil_iff.mpr ?_
    intro v hv
    simp only [decide_eq_true_eq, not_and]
    intro h1 h2 _
    exact h v hv ⟨h1, h2⟩
  have hA : (insert_vote db postId userId VoteType.up).1 =
      Vote_apply { db with votes := db.votes ++
          [{ author := userId, post := postId, vtype := VoteType.up }] }
        { author := userId, post := postId, vtype := VoteType.up } 1 := by
    simp only [insert_vote, hup, List.isEmpty_nil, eq_self_iff_true, if_true,
      OPPOSING_VOTES, List.foldl_nil, createVote]
  have hv1 : (insert_vote db postId userId VoteType.up).1.votes =
      db.votes ++ [{ author := userId, post := postId, vtype := VoteType.up }] := by
    rw [hA, Vote_apply_votes]
  have hmatched2 : (insert_vote db postId userId VoteType.up).1.votes.filter
      (fun v => decide (v.post = postId ∧ v.author = userId ∧ v.vtype = VoteType.up)) =
      [{ author := userId, post := postId, vtype := VoteType.up }] := by
    rw [hv1, List.filter_append, hup]
    simp
  have hremove : removeFirst
      (db.votes ++ [{ author := userId, post := postId, vtype := VoteType.up }])
      { author := userId, post := postId, vtype := VoteType.up } = db.votes := by
    refine removeFirst_append_singleton _ _ ?_
    intro x hx hcon
    refine h x hx ?_
    rw [hcon]
    exact ⟨rfl, rfl⟩
  have hB : (insert_vote (insert_vote db postId userId VoteType.up).1 postId userId
      VoteType.up).1 =
      Vote_apply { (insert_vote db postId userId VoteType.up).1 with votes := db.votes }
        { author := userId, post := postId, vtype := VoteType.up } (-1) := by
    rw [insert_vote]
    rw [hmatched2]
    simp only [List.isEmpty_cons, List.foldl_cons, List.foldl_nil, Bool.false_eq_true,
      if_false, deleteVote]
    rw [hv1, hremove]
  rw [hB, Vote_apply_up _ _ _ rfl]
  rw [hA, Vote_apply_up _ _ _ rfl]
  simp only [usc_posts, psc_posts_self, usc_profiles_same, psc_profiles]
  refine ⟨?_, ?_, ?_⟩ <;> simp [psc_posts_self]

theorem up_vote_toggle_restores_witness :
    ((insert_vote (insert_vote db0 0 2 VoteType.up).1 0 2 VoteType.up).1.posts 0).score =
      (db0.posts 0).score ∧
    ((insert_vote (insert_vote db0 0 2 VoteType.up).1 0 2 VoteType.up).1.posts 0).rank =
      (db0.posts 0).rank ∧
    ((insert_vote (insert_vote db0 0 2 VoteType.up).1 0 2 VoteType.up).1.profiles
        (db0.posts 0).author).score = (db0.profiles (db0.posts 0).author).score :=
  up_vote_toggle_restores db0 0 2 (by intro v hv; simp [db0] at hv)

/- ---------------------------------------------------------------------------
   Notification dispatcher (models.py lines 432-440, 479-492, 729-738).
   Creating a Note row fires verify_note (dates/html, not modelled) and
   finalize_note, which increments the target profile's new_messages counter
   when the new note is unread. -/

def createNote (db : DB) (n : NoteR) : DB :=
  let db1 : DB := { db with notes := db.notes ++ [n] }
  if n.unread then
    db1.updateProfile n.target (fun pr => { pr with new_messages := pr.new_messages + 1 })
  else db1

/-- send_note (models.py lines 432-440): the note to the target is created
    with type NOTE_USER (the literal in the source), not with the type
    argument; when both is set a second, already-read copy with the passed
    type goes to the sender.  The url is truncated to 200 characters. -/
def send_note (db : DB) (sender target : Nat) (content : String) (ntype : NoteType)
    (unread : Bool) (both : Bool) (url : String) : DB :=
  let url2 := url.take 200
  let db1 := createNote db
    { sender := sender, target := target, content := content, ntype := NoteType.user,
      unread := unread, url := url2 }
  if both then
    createNote db1
      { sender := sender, target := sender, content := content, ntype := ntype,
        unread := false, url := url2 }
  else db1

@[simp] lemma createNote_notes (db : DB) (n : NoteR) :
    (createNote db n).notes = db.notes ++ [n] := by
  simp only [createNote]
  split <;> rfl

@[simp] lemma createNote_posts (db : DB) (n : NoteR) :
    (createNote db n).posts = db.posts := by
  simp only [createNote]
  split <;> rfl

@[simp] lemma createNote_votes (db : DB) (n : NoteR) :
    (createNote db n).votes = db.votes := by
  simp only [createNote]
  split <;> rfl

@[simp] lemma createNote_postIds (db : DB) (n : NoteR) :
    (createNote db n).postIds = db.postIds := by
  simp only [createNote]
  split <;> rfl

@[simp] lemma createNote_revisions (db : DB) (n : NoteR) :
    (createNote db n).revisions = db.revisions := by
  simp only [createNote]
  split <;> rfl

lemma send_note_notes (db : DB) (sender target : Nat) (content : String)
    (ntype : NoteType) (unread : Bool) (both : Bool) (url : String) :
    (send_note db sender target content ntype unread both url).notes =
      db.notes ++
        ({ sender := sender, target := target, content := content,
           ntype := NoteType.user, unread := unread, url := url.take 200 } ::
          (if both then
            [{ sender := sender, target := sender, content := content, ntype := ntype,
               unread := false, url := url.take 200 }]
          else [])) := by
  simp only [send_note]
  split <;> simp

@[simp] lemma send_note_posts (db : DB) (sender target : Nat) (content : String)
    (ntype : NoteType) (unread : Bool) (both : Bool) (url : String) :
    (send_note db sender target content ntype unread both url).posts = db.posts := by
  simp only [send_note]
  split <;> simp

@[simp] lemma send_note_votes (db : DB) (sender target : Nat) (content : String)
    (ntype : NoteType) (unread : Bool) (both : Bool) (url : String) :
    (send_note db sender target content ntype unread both url).votes = db.votes := by
  simp only [send_note]
  split <;> simp

@[simp] lemma send_note_postIds (db : DB) (sender target : Nat) (content : String)
    (ntype : NoteType) (unread : Bool) (both : Bool) (url : String) :
    (send_note db sender target content ntype unread both url).postIds = db.postIds := by
  simp only [send_note]
  split <;> simp

@[simp] lemma send_note_revisions (db : DB) (sender target : Nat) (content : String)
    (ntype : NoteType) (unread : Bool) (both : Bool) (url : String) :
    (send_note db sender target content ntype unread both url).revisions = db.revisions := by
  simp only [send_note]
  split <;> simp

/-- Claim C9: the Note created for the target always has type NOTE_USER no
    matter which type argument is passed; only the optional second note to the
    sender (created when both is true, always with unread set to false)
    carries the passed type. -/
theorem send_note_target_type (db : DB) (sender target : Nat) (content : String)
    (ntype : NoteType) (unread : Bool) (both : Bool) (url : String) :
    (send_note db sender target content ntype unread both url).notes =
      db.notes ++
        ({ sender := sender, target := target, content := content,
           ntype := NoteType.user, unread := unread, url := url.take 200 } ::
          (if both then
            [{ sender := sender, target := sender, content := content, ntype := ntype,
               unread := false, url := url.take 200 }]
          else [])) :=
  send_note_notes db sender target content ntype unread both url

/-- Post.get_absolute_url (models.py lines 181-188): the object url when set,
    else a show url built from the root's id and slug, with a fragment for non
    top-level posts. -/
def Post_get_absolute_url (db : DB) (postId : Nat) : String :=
  let p := db.posts postId
  let base :=
    if p.ptype ∈ POST_TOPLEVEL then
      "/post/show/" ++ toString p.rootId ++ "/" ++ (db.posts p.rootId).slug ++ "/"
    else
      "/post/show/" ++ toString p.rootId ++ "/" ++ (db.posts p.rootId).slug ++ "/#" ++
        toString postId
  if p.url ≠ "" then p.url else base

/-- Modelled from the spec: notegen is not among the sources; post_action
    builds the text of a post-creation notification. -/
def notegen_post_action (userId postId : Nat) : String :=
  "user " ++ toString userId ++ " created post " ++ toString postId

/-- Modelled from the spec: notegen.post_moderator_action builds the text of a
    moderator-action notice about a post. -/
def notegen_post_moderator_action (userId postId : Nat) : String :=
  "user " ++ toString userId ++ " moderated post " ++ toString postId

/-- Modelled from the spec: notegen.user_moderator_action builds the text of a
    moderator-action notice about a user. -/
def notegen_user_moderator_action (userId targetId : Nat) : String :=
  "user " ++ toString userId ++ " moderated user " ++ toString targetId

/-- Authors of every post row whose root is rootId. -/
def threadAuthors (db : DB) (rootId : Nat) : List Nat :=
  (db.postIds.filter (fun i => decide ((db.posts i).rootId = rootId))).map
    (fun i => (db.posts i).author)

/-- The recipients of post_create_notification: the root author plus every
    thread author, deduplicated (a Python set; the model fixes an iteration
    order, the source order is unspecified). -/
def notifRecipients (db : DB) (postId : Nat) : List Nat :=
  ((db.posts (db.posts postId).rootId).author ::
    threadAuthors db (db.posts postId).rootId).dedup

/-- post_create_notification (models.py lines 479-492): notes to the root
    author and all thread authors; a note is unread unless its recipient is
    the created post's own author. -/
def post_create_notification (db : DB) (postId : Nat) : DB :=
  let text := notegen_post_action (db.posts postId).author postId
  let u := Post_get_absolute_url db postId
  (notifRecipients db postId).foldl
    (fun d target =>
      send_note d (db.posts postId).author target text NoteType.user
        (target != (db.posts postId).author) false u) db

/-- One Django save event for a post: created flag, raw flag, content. -/
structure SaveEv where
  created : Bool
  raw : Bool
  content : String
deriving DecidableEq, Repr

/-- finalize_post (models.py lines 701-723) invokes post_create_notification
    iff the save is a creation, the content is nonempty and raw is not set. -/
def finalize_post_notifies (e : SaveEv) : Bool :=
  e.created && (e.content != "" && !e.raw)

/-- Number of post_create_notification invocations over a list of saves. -/
def notifyCount (evs : List SaveEv) : Nat :=
  (evs.filter finalize_post_notifies).length

lemma foldl_send_note_notes (s : Nat) (c u : String) (f : Nat → Bool) :
    ∀ (l : List Nat) (db : DB),
      (l.foldl (fun d t => send_note d s t c NoteType.user (f t) false u) db).notes =
        db.notes ++ l.map (fun t =>
          { sender := s, target := t, content := c, ntype := NoteType.user,
            unread := f t, url := u.take 200 }) := by
  intro l
  induction l with
  | nil => intro db; simp
  | cons t rest ih =>
    intro db
    simp only [List.foldl_cons, List.map_cons]
    rw [ih, send_note_notes]
    simp

/-- Claim C8: post_create_notification runs exactly once per post (only on the
    single creating save, and only when the content is nonempty and raw is not
    set); the note recipients are the root author together with the authors of
    every post in the thread rooted at the root, deduplicated, and each note
    is unread except the one to the created post's own author. -/
theorem post_notification_recipients (db : DB) (postId : Nat)
    (evs : List SaveEv) (e : SaveEv)
    (hev : evs.filter (fun s => s.created) = [e]) :
    notifyCount evs = (if e.content ≠ "" ∧ e.raw = false then 1 else 0) ∧
    (post_create_notification db postId).notes =
      db.notes ++ (notifRecipients db postId).map (fun t =>
        { sender := (db.posts postId).author, target := t,
          content := notegen_post_action (db.posts postId).author postId,
          ntype := NoteType.user, unread := t != (db.posts postId).author,
          url := (Post_get_absolute_url db postId).take 200 }) ∧
    (notifRecipients db postId).Nodup ∧
    (notifRecipients db postId).toFinset =
      insert ((db.posts (db.posts postId).rootId).author)
        (threadAuthors db (db.posts postId).rootId).toFinset := by
  refine ⟨?_, ?_, ?_, ?_⟩
  · have hsplit : notifyCount evs =
        ((evs.filter (fun s => s.created)).filter finalize_post_notifies).length := by
      rw [List.filter_filter]
      unfold notifyCount
      congr 1
      apply List.filter_congr
      intro a _
      cases ha : a.created <;> simp [finalize_post_notifies, ha]
    have he : e.created = true := by
      have hm : e ∈ evs.filter (fun s => s.created) := by
        rw [hev]
        exact List.mem_singleton_self e
      simpa using (List.mem_filter.mp hm).2
    rw [hsplit, hev]
    obtain ⟨ecr, era, eco⟩ := e
    simp only at he
    subst he
    by_cases hc : eco = "" <;> cases era <;>
      simp [finalize_post_notifies, hc, List.filter_singleton]
  · exact foldl_send_note_notes _ _ _ _ _ db
  · exact List.nodup_dedup _
  · refine Finset.ext fun x => ?_
    simp [notifRecipients, List.mem_toFinset, List.mem_dedup, List.mem_cons]

def saveEv0 : SaveEv := { created := true, raw := false, content := "c" }

theorem post_notification_recipients_witness :
    notifyCount [saveEv0] = (if saveEv0.content ≠ "" ∧ saveEv0.raw = false then 1 else 0) ∧
    (post_create_notification db0 0).notes =
      db0.notes ++ (notifRecipients db0 0).map (fun t =>
        { sender := (db0.posts 0).author, target := t,
          content := notegen_post_action (db0.posts 0).author 0,
          ntype := NoteType.user, unread := t != (db0.posts 0).author,
          url := (Post_get_absolute_url db0 0).take 200 }) ∧
    (notifRecipients db0 0).Nodup ∧
    (notifRecipients db0 0).toFinset =
      insert ((db0.posts (db0.posts 0).rootId).author)
        (threadAuthors db0 (db0.posts 0).rootId).toFinset :=
  post_notification_recipients db0 0 [saveEv0] saveEv0 (by decide)

/-- Post.combine (models.py lines 262-267): the compact view used to diff
    revisions; content-only types use the content alone. -/
def Post_combine (p : PostR) : String :=
  if p.ptype ∈ POST_CONTENT_ONLY then p.content
  else "TITLE:" ++ p.title ++ "\n" ++ p.content ++ "\nTAGS:" ++ p.tag_val

/-- Content of the most recent prior revision, empty string when none exists
    (revisions are stored in save order; the source orders by date, which
    coincides with save order since each revision is stamped with the post's
    lastedit date at creation). -/
def prevContent (db : DB) (postId : Nat) : String :=
  match (db.revisions postId).getLast? with
  | some r => r.content
  | none => ""

/-- create_revision (models.py lines 463-477), parametrized by the unified
    diff routine (difflib is Python library code, kept abstract).  A revision
    row is created, and the revision count bumped, only when the combined form
    differs from the last revision's content. -/
def create_revision (udiff : String → String → String) (db : DB) (postId : Nat) : DB :=
  let content := Post_combine (db.posts postId)
  let prev := prevContent db postId
  if content ≠ prev then
    let db1 : DB :=
      { db with revisions := fun j =>
          if j = postId then
            db.revisions postId ++ [{ diff := udiff prev content, content := content }]
          else db.revisions j }
    db1.updatePost postId (fun p => { p with revision_count := p.revision_count + 1 })
  else db

/-- Claim C7: create_revision compares the post's combined form to the most
    recent prior revision's content (empty string when none exists); when they
    are equal nothing is created and revision_count is unchanged, otherwise
    exactly one PostRevision row storing the unified diff and a full snapshot
    of the new combined form is appended and revision_count grows by 1. -/
theorem create_revision_effects (udiff : String → String → String) (db : DB)
    (postId : Nat) :
    (∀ j : Nat, (create_revision udiff db postId).revisions j =
      if j = postId ∧ Post_combine (db.posts postId) ≠ prevContent db postId then
        db.revisions j ++
          [{ diff := udiff (prevContent db postId) (Post_combine (db.posts postId)),
             content := Post_combine (db.posts postId) }]
      else db.revisions j) ∧
    ((create_revision udiff db postId).posts postId).revision_count =
      (if Post_combine (db.posts postId) = prevContent db postId then
        (db.posts postId).revision_count
      else (db.posts postId).revision_count + 1) ∧
    (create_revision udiff db postId).notes = db.notes ∧
    (create_revision udiff db postId).votes = db.votes := by
  by_cases hc : Post_combine (db.posts postId) = prevContent db postId
  · simp [create_revision, hc]
  · refine ⟨?_, ?_, ?_, ?_⟩
    · intro j
      by_cases hj : j = postId <;>
        simp [create_revision, hc, hj, DB.updatePost, DB.setPost]
    · simp [create_revision, hc, DB.updatePost, DB.setPost]
    · simp [create_revision, hc, DB.updatePost, DB.setPost]
    · simp [create_revision, hc, DB.updatePost, DB.setPost]

@[simp] lemma Post_apply_votes (db : DB) (postId : Nat) (dir : Int) :
    (Post_apply db postId dir).votes = db.votes := by
  simp only [Post_apply]
  split <;> split <;> simp

@[simp] lemma Post_apply_notes (db : DB) (postId : Nat) (dir : Int) :
    (Post_apply db postId dir).notes = db.notes := by
  simp only [Post_apply]
  split <;> split <;> simp

@[simp] lemma Post_apply_postIds (db : DB) (postId : Nat) (dir : Int) :
    (Post_apply db postId dir).postIds = db.postIds := by
  simp only [Post_apply]
  split <;> split <;> simp

/-- Post row deletion: the row disappears, then the post_delete signal fires
    unapply_instance, hence Post.apply(-1) on the in-memory instance. -/
def postDelete (db : DB) (postId : Nat) : DB :=
  let db1 : DB := { db with postIds := db.postIds.filter (fun i => decide (i ≠ postId)) }
  Post_apply db1 postId (-1)

/-- The post has no children besides itself (models.py line 412). -/
def no_orphans (db : DB) (postId : Nat) : Bool :=
  (db.postIds.filter (fun i => decide ((db.posts i).parentId = postId ∧ i ≠ postId))).length == 0

/-- UserProfile.can_moderate (models.py lines 80-90). -/
def can_moderate (pr : ProfileR) : Bool :=
  decide (pr.utype = .moderator) || decide (pr.utype = .admin)

/-- The value a moderation call returns: user_moderate yields a
    (success, message) pair, post_moderate yields a redirect url. -/
inductive ModResult
  | pair (success : Bool) (msg : String)
  | url (u : String)
deriving DecidableEq, Repr

def ModResult.isPair : ModResult → Bool
  | .pair _ _ => true
  | .url _ => false

def ModResult.isFailurePair : ModResult → Bool
  | .pair false _ => true
  | _ => false

def userStatusDisplay : UserStatus → String
  | .active => "active"
  | .suspended => "suspended"

def postStatusDisplay : PostStatus → String
  | .opened => "open"
  | .closed => "closed"
  | .deleted => "deleted"

/-- Modelled from the spec: the user profile url produced by reverse(). -/
def user_get_absolute_url (userId : Nat) : String :=
  "/user/profile/" ++ toString userId ++ "/"

/-- user_moderate (models.py lines 367-388): capability and authorization are
    checked before any mutation; on success the target profile status is set
    and a moderator notice is sent to the target (with a copy to the actor). -/
def user_moderate (db : DB) (userId targetId : Nat) (status : UserStatus)
    (authUserEdit : Bool) : DB × ModResult :=
  if ¬ can_moderate (db.profiles userId) then
    (db, .pair false ("User " ++ toString userId ++ " not a moderator"))
  else if ¬ authUserEdit then
    (db, .pair false ("User " ++ toString userId ++ " not authorized to moderate " ++
      toString targetId))
  else
    let db1 := db.updateProfile targetId (fun pr => { pr with status := status })
    let text := notegen_user_moderator_action userId targetId
    let db2 := send_note db1 userId targetId text NoteType.moderator true true
      (user_get_absolute_url userId)
    (db2, .pair true ("User status set to " ++ userStatusDisplay status))

/-- post_moderate (models.py lines 390-430): returns a redirect url, not a
    success pair; reasons are recorded through the request messages framework,
    modelled as the returned message list.  Reopening requires moderator
    capability; any transition requires authorize_post_edit; deletion by the
    author of a childless post hard-deletes the votes and the post row. -/
def post_moderate (db : DB) (postId userId : Nat) (status : PostStatus)
    (authPostEdit : Bool) : DB × ModResult × List String :=
  let url := Post_get_absolute_url db postId
  if status = .opened ∧ ¬ can_moderate (db.profiles userId) then
    (db, .url url, ["User " ++ toString userId ++ " not a moderator"])
  else if ¬ authPostEdit then
    (db, .url url,
      ["User " ++ toString userId ++ " may not moderate post " ++ toString postId])
  else if status = .deleted ∧ no_orphans db postId ∧ userId = (db.posts postId).author then
    let db1 := (db.votes.filter (fun v => decide (v.post = postId))).foldl deleteVote db
    let db2 := postDelete db1 postId
    (db2, .url "/", [])
  else
    let db1 := db.updatePost postId (fun p => { p with status := status })
    let text := notegen_post_moderator_action userId postId
    let db2 := send_note db1 userId ((db1.posts postId).author) text NoteType.moderator
      true true (Post_get_absolute_url db1 postId)
    (db2, .url url, ["Post status set to " ++ postStatusDisplay status])

/-- Claim C5 counterexample: a post_moderate call that fails the capability
    check (a non-moderator reopening a post) does not return a
    (success, message) pair; it returns a url value. -/
theorem post_moderate_failure_not_pair :
    ModResult.isPair (post_moderate db0 0 1 PostStatus.opened true).2.1 = false := by
  rfl

/-- Claim C5 (amended): when the actor fails the capability or authorization
    check, user_moderate returns a (False, reason) pair and post_moderate
    returns the post's url while recording a human-readable reason through the
    messages framework; in both cases the database is unchanged, and the
    functions are total (no exception propagates). -/
theorem moderation_failure_no_mutation (db : DB) (userId targetId postId : Nat)
    (ustatus : UserStatus) (pstatus : PostStatus) (authU authP : Bool)
    (hfailU : can_moderate (db.profiles userId) = false ∨ authU = false)
    (hfailP : (pstatus = PostStatus.opened ∧ can_moderate (db.profiles userId) = false) ∨
      authP = false) :
    (user_moderate db userId targetId ustatus authU).1 = db ∧
    ModResult.isFailurePair (user_moderate db userId targetId ustatus authU).2 = true ∧
    (post_moderate db postId userId pstatus authP).1 = db ∧
    (post_moderate db postId userId pstatus authP).2.1 =
      ModResult.url (Post_get_absolute_url db postId) ∧
    (post_moderate db postId userId pstatus authP).2.2 ≠ [] := by
  have hu : (user_moderate db userId targetId ustatus authU).1 = db ∧
      ModResult.isFailurePair (user_moderate db userId targetId ustatus authU).2 = true := by
    rcases hfailU with h | h
    · simp [user_moderate, h, ModResult.isFailurePair]
    · subst h
      by_cases hm : can_moderate (db.profiles userId) <;>
        simp [user_moderate, hm, ModResult.isFailurePair]
  have hp : (post_moderate db postId userId pstatus authP).1 = db ∧
      (post_moderate db postId userId pstatus authP).2.1 =
        ModResult.url (Post_get_absolute_url db postId) ∧
      (post_moderate db postId userId pstatus authP).2.2 ≠ [] := by
    rcases hfailP with ⟨h1, h2⟩ | h
    · simp [post_moderate, h1, h2]
    · subst h
      by_cases hg : pstatus = PostStatus.opened ∧
          ¬ can_moderate (db.profiles userId) = true
      · simp [post_moderate, hg]
      · simp only [post_moderate, hg, if_false, Bool.not_true]
        split <;> simp_all
  exact ⟨hu.1, hu.2, hp.1, hp.2.1, hp.2.2⟩

theorem moderation_failure_no_mutation_witness :
    (user_moderate db0 1 0 UserStatus.suspended true).1 = db0 ∧
    ModResult.isFailurePair (user_moderate db0 1 0 UserStatus.suspended true).2 = true ∧
    (post_moderate db0 0 1 PostStatus.opened true).1 = db0 ∧
    (post_moderate db0 0 1 PostStatus.opened true).2.1 =
      ModResult.url (Post_get_absolute_url db0 0) ∧
    (post_moderate db0 0 1 PostStatus.opened true).2.2 ≠ [] :=
  moderation_failure_no_mutation db0 1 0 0 UserStatus.suspended PostStatus.opened true true
    (Or.inl (by rfl)) (Or.inl ⟨rfl, by rfl⟩)

lemma foldl_deleteVote_votes (l : List VoteR) :
    ∀ db : DB, (l.foldl deleteVote db).votes = l.foldl removeFirst db.votes := by
  induction l with
  | nil => intro db; rfl
  | cons v rest ih =>
    intro db
    simp only [List.foldl_cons]
    rw [ih]
    simp only [deleteVote, Vote_apply_votes]

lemma foldl_deleteVote_notes (l : List VoteR) :
    ∀ db : DB, (l.foldl deleteVote db).notes = db.notes := by
  induction l with
  | nil => intro db; rfl
  | cons v rest ih =>
    intro db
    simp only [List.foldl_cons]
    rw [ih]
    simp only [deleteVote, Vote_apply_notes]

lemma foldl_deleteVote_postIds (l : List VoteR) :
    ∀ db : DB, (l.foldl deleteVote db).postIds = db.postIds := by
  induction l with
  | nil => intro db; rfl
  | cons v rest ih =>
    intro db
    simp only [List.foldl_cons]
    rw [ih]
    simp only [deleteVote, Vote_apply_postIds]

lemma foldl_removeFirst_cons_of_ne (x : VoteR) (l : List VoteR)
    (h : ∀ v ∈ l, v ≠ x) :
    ∀ L : List VoteR, l.foldl removeFirst (x :: L) = x :: l.foldl removeFirst L := by
  induction l with
  | nil => intro L; rfl
  | cons v rest ih =>
    intro L
    have hxv : x ≠ v := fun he => h v (List.mem_cons_self v rest) he.symm
    simp only [List.foldl_cons, removeFirst, if_neg hxv]
    exact ih (fun u hu => h u (List.mem_cons_of_mem v hu)) (removeFirst L v)

lemma foldl_removeFirst_filter (p : VoteR → Bool) :
    ∀ L : List VoteR, (L.filter p).foldl removeFirst L = L.filter (fun v => !(p v)) := by
  intro L
  induction L with
  | nil => rfl
  | cons x xs ih =>
    by_cases hp : p x
    · rw [List.filter_cons_of_pos hp]
      simp only [List.foldl_cons, removeFirst, eq_self_iff_true, if_true]
      rw [ih, List.filter_cons_of_neg]
      simp [hp]
    · rw [List.filter_cons_of_neg (by simp [hp])]
      rw [foldl_removeFirst_cons_of_ne x (xs.filter p)
        (fun v hv he => hp (he ▸ (List.mem_filter.mp hv).2))]
      rw [ih, List.filter_cons_of_pos]
      simp [hp]

lemma url_update_status (db : DB) (postId : Nat) (st : PostStatus) :
    Post_get_absolute_url
      (db.updatePost postId (fun p => { p with status := st })) postId =
      Post_get_absolute_url db postId := by
  by_cases hr : (db.posts postId).rootId = postId
  · simp [Post_get_absolute_url, hr]
  · simp [Post_get_absolute_url, updatePost_posts_other _ _ _ _ hr]

/-- Claim C6: an authorized post_moderate to deleted, by the post's author on
    a post with no children besides itself, deletes every vote on the post and
    the post row itself and creates no note (returning the root url); every
    other authorized moderation sets and persists the post's status and emits
    a moderator-action note to the author with a copy to the actor. -/
theorem post_moderate_effects (db : DB) (postId userId : Nat) (status : PostStatus)
    (hop : status = PostStatus.opened → can_moderate (db.profiles userId) = true) :
    if status = PostStatus.deleted ∧ no_orphans db postId ∧
        userId = (db.posts postId).author then
      (post_moderate db postId userId status true).1.votes.filter
          (fun v => decide (v.post = postId)) = [] ∧
      postId ∉ (post_moderate db postId userId status true).1.postIds ∧
      (post_moderate db postId userId status true).1.notes = db.notes ∧
      (post_moderate db postId userId status true).2.1 = ModResult.url "/"
    else
      ((post_moderate db postId userId status true).1.posts postId).status = status ∧
      (post_moderate db postId userId status true).1.postIds = db.postIds ∧
      (post_moderate db postId userId status true).1.notes =
        db.notes ++
          [{ sender := userId, target := (db.posts postId).author,
             content := notegen_post_moderator_action userId postId,
             ntype := NoteType.user, unread := true,
             url := (Post_get_absolute_url db postId).take 200 },
           { sender := userId, target := userId,
             content := notegen_post_moderator_action userId postId,
             ntype := NoteType.moderator, unread := false,
             url := (Post_get_absolute_url db postId).take 200 }] := by
  have hgate : ¬ (status = PostStatus.opened ∧
      ¬ can_moderate (db.profiles userId) = true) := by
    rintro ⟨h1, h2⟩
    exact h2 (hop h1)
  by_cases hdel : status = PostStatus.deleted ∧ no_orphans db postId ∧
      userId = (db.posts postId).author
  · rw [if_pos hdel]
    have hres : post_moderate db postId userId status true =
        (postDelete ((db.votes.filter (fun v => decide (v.post = postId))).foldl
          deleteVote db) postId, ModResult.url "/", []) := by
      simp only [post_moderate, hgate, if_false, if_pos hdel]
      simp
    rw [hres]
    refine ⟨?_, ?_, ?_, rfl⟩
    · show (postDelete _ postId).votes.filter _ = []
      simp only [postDelete, Post_apply_votes]
      show ((db.votes.filter (fun v => decide (v.post = postId))).foldl
        deleteVote db).votes.filter (fun v => decide (v.post = postId)) = []
      rw [foldl_deleteVote_votes, foldl_removeFirst_filter, List.filter_filter]
      refine List.filter_eq_nil_iff.mpr ?_
      intro v _
      cases hv : decide (v.post = postId) <;> simp [hv]
    · simp only [postDelete, Post_apply_postIds]
      rw [foldl_deleteVote_postIds]
      intro hmem
      have := List.of_mem_filter hmem
      simp at this
    · simp only [postDelete, Post_apply_notes]
      exact foldl_deleteVote_notes _ db
  · rw [if_neg hdel]
    have hres : post_moderate db postId userId status true =
        (send_note (db.updatePost postId (fun p => { p with status := status })) userId
          ((db.updatePost postId (fun p => { p with status := status })).posts postId).author
          (notegen_post_moderator_action userId postId) NoteType.moderator true true
          (Post_get_absolute_url
            (db.updatePost postId (fun p => { p with status := status })) postId),
         ModResult.url (Post_get_absolute_url db postId),
         ["Post status set to " ++ postStatusDisplay status]) := by
      simp only [post_moderate, hgate, if_false, if_neg hdel]
      simp
    rw [hres]
    refine ⟨?_, ?_, ?_⟩
    · simp
    · simp
    · rw [send_note_notes]
      simp only [updatePost_notes, updatePost_posts_same, url_update_status]
      simp

theorem post_moderate_effects_witness :
    if PostStatus.deleted = PostStatus.deleted ∧ no_orphans db0 0 ∧
        0 = (db0.posts 0).author then
      (post_moderate db0 0 0 PostStatus.deleted true).1.votes.filter
          (fun v => decide (v.post = 0)) = [] ∧
      0 ∉ (post_moderate db0 0 0 PostStatus.deleted true).1.postIds ∧
      (post_moderate db0 0 0 PostStatus.deleted true).1.notes = db0.notes ∧
      (post_moderate db0 0 0 PostStatus.deleted true).2.1 = ModResult.url "/"
    else
      ((post_moderate db0 0 0 PostStatus.deleted true).1.posts 0).status =
        PostStatus.deleted ∧
      (post_moderate db0 0 0 PostStatus.deleted true).1.postIds = db0.postIds ∧
      (post_moderate db0 0 0 PostStatus.deleted true).1.notes =
        db0.notes ++
          [{ sender := 0, target := (db0.posts 0).author,
             content := notegen_post_moderator_action 0 0,
             ntype := NoteType.user, unread := true,
             url := (Post_get_absolute_url db0 0).take 200 },
           { sender := 0, target := 0,
             content := notegen_post_moderator_action 0 0,
             ntype := NoteType.moderator, unread := false,
             url := (Post_get_absolute_url db0 0).take 200 }] :=
  post_moderate_effects db0 0 0 PostStatus.deleted (fun h => absurd h (by decide))
